import Mathlib

/-!
Verification development for the luppiter-acme worker (`src/index.ts`).

The worker's orchestration core is embedded shallowly:

* the DNS propagation watcher (`waitUntilVerify`) is modelled as a function
  over a list of DNS tick outcomes, one tick per 5-second poll interval;
* the sequential workflow (`startWorker`) is modelled as a function over an
  environment of external-collaborator responses (coordinator RPC answers,
  ACME objects, DNS behaviour), returning the job outcome together with the
  list of externally visible calls it performed, in order.
-/

namespace LuppiterAcme

/-! ## Data model -/

/-- Outcome of one poll tick of the DNS environment at a given lookup key:
the result of `dns.resolveCname` (`none` models a resolution error) and,
for each address, the result of `dns.resolveTxt` (`none` models an error;
`some` is a list of TXT record sets, i.e. a list of lists of strings). -/
structure DnsTick where
  cname : Option (List String)
  txt : String → Option (List (List String))

/-- An ACME challenge object; only its `type` field is inspected by the
worker, the token identifies the object for key-authorization lookup. -/
structure ChallengeObj where
  ctype : String
  token : String
deriving DecidableEq, Repr

/-- An ACME authorization: a domain identifier value and its offered
sub-challenges, as returned by `acmeClient.getAuthorizations`. -/
structure AuthObj where
  identifierValue : String
  challenges : List ChallengeObj
deriving DecidableEq, Repr

/-- One element of the list built by `getChallenges`: an authorization
paired with its selected dns-01 challenge. -/
structure ChalPair where
  auth : AuthObj
  challenge : ChallengeObj
deriving DecidableEq, Repr

/-- A challenge record `{key, value}` as built in `startWorker`. -/
structure ChallengeRecord where
  key : String
  value : String
deriving DecidableEq, Repr

/-- Worker-level failures: a rejected coordinator RPC, or a thrown
`Error(msg)`. -/
inductive WError where
  | rpc (msg : String)
  | thrown (msg : String)
deriving DecidableEq, Repr

/-- Externally visible calls made by the worker, recorded in program order. -/
inductive Event where
  | registerClientCall
  | createAccountCall (email : String)
  | fetchDomainsCall
  | createOrderCall (domains : List String)
  | registerChallengesCall (values : List String)
  | watchCall (key : String) (value : String)
  | verifyChallengeCall (authId : String) (challengeToken : String)
  | completeChallengeCall (challengeToken : String)
  | finalizeOrderCall (csr : List Nat)
  | verifiedCallbackCall (csr : String) (privKey : String) (certificate : String)
deriving DecidableEq, Repr

/-- Terminal outcome of a `startWorker` run: completed, failed with an
error, or blocked forever on an unresolved watcher. -/
inductive Outcome where
  | ok
  | err (e : WError)
  | pending
deriving DecidableEq, Repr

/-- Responses of the external collaborators (coordinator RPC service, ACME
collaborator, DNS). `dnsTrace k` gives the successive poll-tick outcomes
the DNS environment produces at lookup key `k`. -/
structure Env where
  registerClient : Except String String
  fetchDomains : Except String (List String)
  authorizations : List String → List AuthObj
  keyAuth : ChallengeObj → String
  registerChallenges : List String → Except String Unit
  dnsTrace : String → List DnsTick
  finalizeResult : ChallengeObj → Except String Unit
  createCsr : Option String → List String → List Nat × List Nat
  getCertificate : List Nat
  verifiedCallback : Except String Unit

/-! ## DNS propagation watcher (`waitUntilVerify`, index.ts:96-125) -/

/-- `[].concat(...result)`: flatten the TXT record sets of one lookup. -/
def flattenTxt (result : List (List String)) : List String := result.flatten

/-- Whether the TXT lookup at address `addr` during tick `t` succeeds and
its flattened records contain `v` (`records.indexOf(v) !== -1`). A failed
lookup (`innerE`) contributes nothing. -/
def txtObserved (t : DnsTick) (addr : String) (v : String) : Bool :=
  match t.txt addr with
  | none => false
  | some result => (flattenTxt result).contains v

/-- Whether tick `t` observes value `v`: the CNAME resolution succeeds and
some returned address has a TXT set containing `v`. A failed CNAME
resolution (`e`) observes nothing. -/
def tickObserves (t : DnsTick) (v : String) : Bool :=
  match t.cname with
  | none => false
  | some addresses => addresses.any (fun addr => txtObserved t addr v)

/-- The poll loop of `waitUntilVerify`: returns the 0-based index of the
first tick that observes `v`, or `none` if no tick of the (finite prefix
of the) tick list does — the promise stays pending.  The `setInterval`
callback runs once per element of the list; as soon as a tick observes
`v` the interval is cleared, so later ticks are never examined. -/
def waitUntilVerify (v : String) : List DnsTick → Option Nat
  | [] => none
  | t :: ts =>
    if tickObserves t v then some 0
    else (waitUntilVerify v ts).map (fun i => i + 1)

/-- Poll interval in seconds (`5 * 1000` ms). -/
def pollInterval : Nat := 5

/-- Settle delay in seconds (`15 * 1000` ms). -/
def settleDelay : Nat := 15

/-- Time (seconds from watcher start) at which the promise resolves: tick
`i` fires at `(i+1) * pollInterval`, and resolution follows after the
settle delay. `none` if the watcher never resolves within the tick list. -/
def resolveTime (v : String) (tr : List DnsTick) : Option Nat :=
  (waitUntilVerify v tr).map (fun i => (i + 1) * pollInterval + settleDelay)

/-- Number of poll ticks the watcher actually executes on this tick list:
up to and including the first observing tick, else all of them. -/
def ticksPolled (v : String) (tr : List DnsTick) : Nat :=
  match waitUntilVerify v tr with
  | some i => i + 1
  | none => tr.length

/-! ## Challenge coordinator (`getChallenges`, index.ts:66-86) -/

/-- The body of the `authorizations.map` in `getChallenges`: filter the
authorization's challenges for type `"dns-01"`, throw
`Error("Unabled to find dns-01 challenge.")` when none remains, otherwise
pair the authorization with `filters[0]`. -/
def selectDns01 (auth : AuthObj) : Except WError ChalPair :=
  match auth.challenges.filter (fun c => c.ctype == "dns-01") with
  | [] => Except.error (WError.thrown "Unabled to find dns-01 challenge.")
  | c :: _ => Except.ok ⟨auth, c⟩

/-- A `map` whose body may throw, as in the TypeScript source: the first
thrown error aborts the whole map. -/
def mapExcept (f : α → Except ε β) : List α → Except ε (List β)
  | [] => Except.ok []
  | a :: as =>
    match f a with
    | Except.error e => Except.error e
    | Except.ok b =>
      match mapExcept f as with
      | Except.error e => Except.error e
      | Except.ok bs => Except.ok (b :: bs)

/-- `getChallenges`: create the order over all domains, fetch the
authorizations, and select each authorization's first dns-01 challenge.
`env.authorizations domains` stands for
`getAuthorizations(createOrder(domains))`. -/
def getChallenges (env : Env) (domains : List String) :
    Except WError (List ChalPair) :=
  mapExcept selectDns01 (env.authorizations domains)

/-- The expected-record computation of `startWorker` (index.ts:160-165):
one record per challenge, key `"_acme-challenge." + identifier`, value the
challenge's key authorization. -/
def computeRecords (env : Env) (chals : List ChalPair) : List ChallengeRecord :=
  chals.map (fun c =>
    ⟨"_acme-challenge." ++ c.auth.identifierValue, env.keyAuth c.challenge⟩)

/-- The payload `pushRecords` hands to the `registerChallenges` RPC
(index.ts:90): `records.map((r) => r.value)` — the values only. -/
def pushRecordsPayload (records : List ChallengeRecord) : List String :=
  records.map (fun r => r.value)

/-- Resolve time of the watcher run for one record: the watcher polls the
DNS environment at the record's key for the record's value. -/
def recordResolveTime (env : Env) (r : ChallengeRecord) : Option Nat :=
  resolveTime r.value (env.dnsTrace r.key)

/-- `Promise.all(records.map(waitUntilVerify))`: resolves, at the time the
last watcher resolves, only when every watcher resolves; `Promise.all([])`
resolves immediately (time 0). -/
def awaitAllVerified (env : Env) (records : List ChallengeRecord) : Option Nat :=
  records.foldr
    (fun r acc =>
      match recordResolveTime env r, acc with
      | some t, some u => some (Nat.max t u)
      | _, _ => none)
    (some 0)

/-! ## Base64 (Node `Buffer.toString("base64")`) -/

/-- The standard base64 alphabet. -/
def base64Alphabet : List Char :=
  "ABCDEFGHIJKLMNOPQRSTUVWXYZabcdefghijklmnopqrstuvwxyz0123456789+/".toList

/-- Character for a 6-bit group. -/
def b64Char (n : Nat) : Char := base64Alphabet.getD n 'A'

/-- RFC 4648 base64 of a byte sequence (each byte reduced mod 256), with
padding, as produced by Node's `Buffer.prototype.toString("base64")`. -/
def base64 : List Nat → String
  | [] => ""
  | [a] =>
    String.mk [b64Char (a % 256 / 4), b64Char (a % 4 * 16), '=', '=']
  | [a, b] =>
    String.mk [b64Char (a % 256 / 4), b64Char (a % 4 * 16 + b % 256 / 16),
               b64Char (b % 16 * 4), '=']
  | a :: b :: c :: rest =>
    String.mk [b64Char (a % 256 / 4), b64Char (a % 4 * 16 + b % 256 / 16),
               b64Char (b % 16 * 4 + c % 256 / 64), b64Char (c % 64)]
      ++ base64 rest

/-! ## Issuance driver (`issue`, index.ts:133-152) and workflow phases -/

/-- `issue`: build the CSR from `domains[0]` (JS indexing: `undefined`,
i.e. `none`, on an empty array) as common name and `domains.slice(1)` as
alternative names, finalize the order, fetch the certificate, and report
key, CSR and certificate base64-encoded through `verifiedCallback`. -/
def issue (env : Env) (domains : List String) : Outcome × List Event :=
  let kc := env.createCsr domains.head? (domains.drop 1)
  let cert := env.getCertificate
  let evs := [Event.finalizeOrderCall kc.2,
              Event.verifiedCallbackCall (base64 kc.2) (base64 kc.1) (base64 cert)]
  match env.verifiedCallback with
  | Except.error e => (Outcome.err (WError.rpc e), evs)
  | Except.ok _ => (Outcome.ok, evs)

/-- Finalization phase: `Promise.all(challenges.map(finalize))` followed by
`issue`. Each `finalize` performs `verifyChallenge`, `completeChallenge`
and `waitForValidStatus`; any failure is fatal. -/
def runFinalizePhase (env : Env) (domains : List String) (chals : List ChalPair)
    (evs : List Event) : Outcome × List Event :=
  match mapExcept (fun c => env.finalizeResult c.challenge) chals with
  | Except.error e => (Outcome.err (WError.thrown e), evs)
  | Except.ok _ => ((issue env domains).1, evs ++ (issue env domains).2)

/-- Verification barrier phase: `await Promise.all(records.map(waitUntilVerify))`.
If some watcher never resolves the whole job stays pending and nothing
further happens; otherwise finalization proceeds. -/
def runVerifyPhase (env : Env) (domains : List String) (chals : List ChalPair)
    (records : List ChallengeRecord) (evs : List Event) : Outcome × List Event :=
  match awaitAllVerified env records with
  | none => (Outcome.pending, evs)
  | some _ =>
    runFinalizePhase env domains chals
      (evs
        ++ chals.map (fun c =>
             Event.verifyChallengeCall c.auth.identifierValue c.challenge.token)
        ++ chals.map (fun c => Event.completeChallengeCall c.challenge.token))

/-- Challenge phase of `startWorker`: `getChallenges`, record computation,
`pushRecords` (the RPC is issued, then its response decides success), then
one watcher per record. -/
def runChallengePhase (env : Env) (domains : List String) (evs : List Event) :
    Outcome × List Event :=
  match getChallenges env domains with
  | Except.error e => (Outcome.err e, evs)
  | Except.ok chals =>
    let records := computeRecords env chals
    let evs2 := evs ++ [Event.registerChallengesCall (pushRecordsPayload records)]
    match env.registerChallenges (pushRecordsPayload records) with
    | Except.error e => (Outcome.err (WError.rpc e), evs2)
    | Except.ok _ =>
      runVerifyPhase env domains chals records
        (evs2 ++ records.map (fun r => Event.watchCall r.key r.value))

/-- `startWorker` (index.ts:154-174): initialize (registerClient RPC),
create the ACME account, fetch domains, then run the challenge,
verification, finalization and issuance phases in order. -/
def startWorker (env : Env) : Outcome × List Event :=
  match env.registerClient with
  | Except.error e => (Outcome.err (WError.rpc e), [Event.registerClientCall])
  | Except.ok email =>
    match env.fetchDomains with
    | Except.error e =>
      (Outcome.err (WError.rpc e),
       [Event.registerClientCall, Event.createAccountCall email,
        Event.fetchDomainsCall])
    | Except.ok domains =>
      runChallengePhase env domains
        [Event.registerClientCall, Event.createAccountCall email,
         Event.fetchDomainsCall, Event.createOrderCall domains]

/-- Events that publish challenge records to the coordinator. -/
def isPublishEvent : Event → Bool
  | Event.registerChallengesCall _ => true
  | _ => false

/-- Events that finalize a challenge (`verifyChallenge` / `completeChallenge`). -/
def isFinalizeEvent : Event → Bool
  | Event.verifyChallengeCall _ _ => true
  | Event.completeChallengeCall _ => true
  | _ => false

/-! ## Concrete fixtures (used by witnesses) -/

/-- A tick whose CNAME resolution fails. -/
def demoFailTick : DnsTick := { cname := none, txt := fun _ => none }

/-- A tick whose CNAME resolution succeeds but every TXT lookup fails. -/
def demoAllFailTick : DnsTick :=
  { cname := some ["a.example.net"], txt := fun _ => none }

/-- A tick observing the value `"tokn1"` behind one CNAME target. -/
def demoOkTick : DnsTick :=
  { cname := some ["cd.example.net"],
    txt := fun a =>
      if a = "cd.example.net" then some [["x"], ["tokn1"]] else none }

/-- A DNS behaviour: one failing tick, then the observing tick. -/
def demoTr : List DnsTick := [demoFailTick, demoOkTick]

def demoChallenge : ChallengeObj := ⟨"dns-01", "tokn1"⟩

def demoHttpChallenge : ChallengeObj := ⟨"http-01", "tokh"⟩

def demoAuth : AuthObj := ⟨"example.com", [demoHttpChallenge, demoChallenge]⟩

/-- An authorization offering no dns-01 challenge. -/
def demoAuthNoDns : AuthObj := ⟨"example.com", [demoHttpChallenge]⟩

def demoRecord : ChallengeRecord := ⟨"_acme-challenge.example.com", "tokn1"⟩

/-- A fully successful single-domain environment. -/
def demoEnv : Env :=
  { registerClient := Except.ok "ops@example.com"
    fetchDomains := Except.ok ["example.com"]
    authorizations := fun ds => if ds = ["example.com"] then [demoAuth] else []
    keyAuth := fun c => c.token
    registerChallenges := fun _ => Except.ok ()
    dnsTrace := fun k => if k = "_acme-challenge.example.com" then demoTr else []
    finalizeResult := fun _ => Except.ok ()
    createCsr := fun _ _ => ([1, 2], [3, 4, 5])
    getCertificate := [77]
    verifiedCallback := Except.ok () }

/-- Same environment, but the `fetchDomains` RPC fails. -/
def demoEnvFetchErr : Env := { demoEnv with fetchDomains := Except.error "boom" }

/-- Same environment, but the only authorization offers no dns-01 challenge. -/
def demoEnvNoDns : Env :=
  { demoEnv with
      authorizations := fun ds =>
        if ds = ["example.com"] then [demoAuthNoDns] else [] }

/-- Same environment, but the `registerChallenges` RPC fails. -/
def demoEnvPushErr : Env :=
  { demoEnv with registerChallenges := fun _ => Except.error "rpcfail" }

/-- Same environment, but the coordinator assigns zero domains. -/
def demoEnvEmptyDomains : Env := { demoEnv with fetchDomains := Except.ok [] }

/-! ## Watcher lemmas -/

theorem waitUntilVerify_nil (v : String) : waitUntilVerify v [] = none := rfl

theorem waitUntilVerify_cons_pos (v : String) (t : DnsTick) (ts : List DnsTick)
    (h : tickObserves t v = true) : waitUntilVerify v (t :: ts) = some 0 := by
  simp [waitUntilVerify, h]

theorem waitUntilVerify_cons_neg (v : String) (t : DnsTick) (ts : List DnsTick)
    (h : tickObserves t v = false) :
    waitUntilVerify v (t :: ts) = (waitUntilVerify v ts).map (fun i => i + 1) := by
  simp [waitUntilVerify, h]

/-- Characterization of a resolving watcher run: the returned index is the
first tick that observes the value. -/
theorem waitUntilVerify_eq_some (v : String) (tr : List DnsTick) (i : Nat) :
    waitUntilVerify v tr = some i ↔
      (∃ tk, tr[i]? = some tk ∧ tickObserves tk v = true) ∧
      ∀ j, j < i → ∀ u, tr[j]? = some u → tickObserves u v = false := by
  induction tr generalizing i with
  | nil => simp [waitUntilVerify]
  | cons t ts ih =>
    by_cases h : tickObserves t v = true
    · rw [waitUntilVerify_cons_pos v t ts h]
      constructor
      · intro hsome
        have hi : i = 0 := by simpa using hsome.symm
        subst hi
        exact ⟨⟨t, by simp, h⟩, by omega⟩
      · rintro ⟨⟨tk, htk, hobs⟩, hfirst⟩
        rcases Nat.eq_zero_or_pos i with hz | hp
        · simp [hz]
        · have := hfirst 0 hp t (by simp)
          rw [h] at this
          exact absurd this (by simp)
    · have hf : tickObserves t v = false := by simpa using h
      rw [waitUntilVerify_cons_neg v t ts hf]
      constructor
      · intro hsome
        rcases Option.map_eq_some'.mp hsome with ⟨i', hi', hmap⟩
        subst hmap
        rcases (ih i').mp hi' with ⟨⟨tk, htk, hobs⟩, hfirst⟩
        refine ⟨⟨tk, by simpa using htk, hobs⟩, ?_⟩
        intro j hj u hu
        cases j with
        | zero =>
          have : t = u := by simpa using hu
          rw [← this]; exact hf
        | succ j' =>
          exact hfirst j' (by omega) u (by simpa using hu)
      · rintro ⟨⟨tk, htk, hobs⟩, hfirst⟩
        cases i with
        | zero =>
          have : t = tk := by simpa using htk
          rw [← this, hf] at hobs
          exact absurd hobs (by simp)
        | succ i' =>
          have hrec : waitUntilVerify v ts = some i' := by
            refine (ih i').mpr ⟨⟨tk, by simpa using htk, hobs⟩, ?_⟩
            intro j hj u hu
            exact hfirst (j + 1) (by omega) u (by simpa using hu)
          simp [hrec]

/-! ## Claim theorems: the DNS propagation watcher -/

/-- C1: for every lookup key and expected value, `waitUntilVerify` never
signals completion before the value has been observed in the flattened TXT
record sets resolved at some CNAME target (no tick before the completing
one observes it, and the completing tick does); and once the value is first
observed at tick `i`, polling stops (exactly `i + 1` ticks are executed)
and completion is signalled `settleDelay` (15 s) after that observation. -/
theorem watcher_resolves_only_after_observation (v : String) (tr : List DnsTick)
    (t : Nat) (h : resolveTime v tr = some t) :
    ∃ i, (∃ tk, tr[i]? = some tk ∧ tickObserves tk v = true) ∧
      (∀ j, j < i → ∀ u, tr[j]? = some u → tickObserves u v = false) ∧
      t = (i + 1) * pollInterval + settleDelay ∧
      ticksPolled v tr = i + 1 := by
  unfold resolveTime at h
  rcases Option.map_eq_some'.mp h with ⟨i, hi, ht⟩
  rcases (waitUntilVerify_eq_some v tr i).mp hi with ⟨hobs, hfirst⟩
  exact ⟨i, hobs, hfirst, ht.symm, by simp [ticksPolled, hi]⟩

/-- Witness for C1 at a concrete behaviour: first tick fails, second tick
observes; completion at second 25 = 2·5 + 15 after exactly two polls. -/
theorem watcher_resolves_only_after_observation_witness :
    ∃ i, (∃ tk, demoTr[i]? = some tk ∧ tickObserves tk "tokn1" = true) ∧
      (∀ j, j < i → ∀ u, demoTr[j]? = some u → tickObserves u "tokn1" = false) ∧
      25 = (i + 1) * pollInterval + settleDelay ∧
      ticksPolled "tokn1" demoTr = i + 1 :=
  watcher_resolves_only_after_observation "tokn1" demoTr 25 (by decide)

/-- C6: inside the poll loop, a failing CNAME resolution skips the whole
tick and polling continues with the next interval (the run over the rest
of the tick list is merely shifted by one); a failing TXT resolution at
one CNAME target contributes nothing at that target; and a tick all of
whose TXT lookups fail is likewise skipped with polling continuing. No
error is ever surfaced: the run still yields an ordinary
(`Option`-valued) result over the remaining ticks. -/
theorem dns_failures_skipped_silently (v : String) (t1 t2 t3 : DnsTick)
    (ts : List DnsTick) (addr : String)
    (h1 : t1.cname = none)
    (h2 : t2.txt addr = none)
    (h3 : ∀ a, t3.txt a = none) :
    waitUntilVerify v (t1 :: ts) = (waitUntilVerify v ts).map (fun i => i + 1)
    ∧ txtObserved t2 addr v = false
    ∧ waitUntilVerify v (t3 :: ts) = (waitUntilVerify v ts).map (fun i => i + 1) := by
  have ho1 : tickObserves t1 v = false := by simp [tickObserves, h1]
  have ho2 : txtObserved t2 addr v = false := by simp [txtObserved, h2]
  have ho3 : tickObserves t3 v = false := by
    unfold tickObserves
    cases hc : t3.cname with
    | none => rfl
    | some addresses => simp [txtObserved, h3]
  exact ⟨waitUntilVerify_cons_neg v t1 ts ho1, ho2,
    waitUntilVerify_cons_neg v t3 ts ho3⟩

/-- Witness for C6 at concrete failing ticks in front of an observing one. -/
theorem dns_failures_skipped_silently_witness :
    waitUntilVerify "tokn1" (demoFailTick :: [demoOkTick])
        = (waitUntilVerify "tokn1" [demoOkTick]).map (fun i => i + 1)
    ∧ txtObserved demoAllFailTick "a.example.net" "tokn1" = false
    ∧ waitUntilVerify "tokn1" (demoAllFailTick :: [demoOkTick])
        = (waitUntilVerify "tokn1" [demoOkTick]).map (fun i => i + 1) :=
  dns_failures_skipped_silently "tokn1" demoFailTick demoAllFailTick
    demoAllFailTick [demoOkTick] "a.example.net" rfl rfl (fun _ => rfl)

/-- C9: the watcher promise never rejects. Over every DNS behaviour
(successes, failures, arbitrary TXT contents) its only possible outcomes
are resolving — and then only at a tick that actually observed the
expected value — or remaining pending; there is no error outcome. -/
theorem watcher_never_rejects (v : String) (tr : List DnsTick) :
    (∃ i tk, waitUntilVerify v tr = some i ∧ tr[i]? = some tk ∧
      tickObserves tk v = true)
    ∨ waitUntilVerify v tr = none := by
  cases hw : waitUntilVerify v tr with
  | none => exact Or.inr rfl
  | some i =>
    rcases (waitUntilVerify_eq_some v tr i).mp hw with ⟨⟨tk, htk, hobs⟩, _⟩
    exact Or.inl ⟨i, tk, rfl, htk, hobs⟩

/-! ## Workflow lemmas -/

theorem mapExcept_ok_forall₂ (f : α → Except ε β) (l : List α) (bs : List β)
    (h : mapExcept f l = Except.ok bs) :
    List.Forall₂ (fun a b => f a = Except.ok b) l bs := by
  induction l generalizing bs with
  | nil =>
    unfold mapExcept at h
    have : ([] : List β) = bs := by simpa using h
    subst this
    exact List.Forall₂.nil
  | cons a as ih =>
    unfold mapExcept at h
    cases hf : f a with
    | error e => rw [hf] at h; exact absurd h (by simp)
    | ok b =>
      rw [hf] at h
      cases hm : mapExcept f as with
      | error e => rw [hm] at h; exact absurd h (by simp)
      | ok bs' =>
        rw [hm] at h
        have : b :: bs' = bs := by simpa using h
        subst this
        exact List.Forall₂.cons hf (ih bs' hm)

theorem mapExcept_error_of_mem (f : α → Except ε β) (e : ε)
    (hf : ∀ x, f x = Except.error e ∨ ∃ b, f x = Except.ok b)
    (l : List α) (a : α) (ha : a ∈ l) (he : f a = Except.error e) :
    mapExcept f l = Except.error e := by
  induction l with
  | nil => cases ha
  | cons x xs ih =>
    unfold mapExcept
    rcases hf x with hx | ⟨b, hb⟩
    · rw [hx]
    · rw [hb]
      have hmem : a ∈ xs := by
        rcases List.mem_cons.mp ha with h1 | h1
        · rw [h1] at he; rw [he] at hb; exact absurd hb (by simp)
        · exact h1
      rw [ih hmem]

theorem find?_eq_head_filter (p : α → Bool) (l : List α) :
    l.find? p = (l.filter p).head? := by
  induction l with
  | nil => rfl
  | cons a as ih =>
    by_cases h : p a = true
    · rw [List.find?_cons_of_pos _ h, List.filter_cons_of_pos h]
      rfl
    · have hf : p a = false := by simpa using h
      rw [List.find?_cons_of_neg _ (by simp [hf]),
        List.filter_cons_of_neg (by simp [hf]), ih]

theorem selectDns01_ok (auth : AuthObj) (p : ChalPair)
    (h : selectDns01 auth = Except.ok p) :
    p.auth = auth ∧
    auth.challenges.find? (fun c => c.ctype == "dns-01") = some p.challenge := by
  unfold selectDns01 at h
  cases hf : auth.challenges.filter (fun c => c.ctype == "dns-01") with
  | nil => rw [hf] at h; exact absurd h (by simp)
  | cons c cs =>
    rw [hf] at h
    have : (⟨auth, c⟩ : ChalPair) = p := by simpa using h
    rw [← this]
    exact ⟨rfl, by rw [find?_eq_head_filter, hf]; rfl⟩

theorem selectDns01_cases (auth : AuthObj) :
    selectDns01 auth
        = Except.error (WError.thrown "Unabled to find dns-01 challenge.")
    ∨ ∃ p, selectDns01 auth = Except.ok p := by
  unfold selectDns01
  cases auth.challenges.filter (fun c => c.ctype == "dns-01") with
  | nil => exact Or.inl rfl
  | cons c cs => exact Or.inr ⟨_, rfl⟩

theorem getChallenges_error_of_missing_dns01 (env : Env) (domains : List String)
    (auth : AuthObj) (ha : auth ∈ env.authorizations domains)
    (hmiss : auth.challenges.filter (fun c => c.ctype == "dns-01") = []) :
    getChallenges env domains
      = Except.error (WError.thrown "Unabled to find dns-01 challenge.") := by
  unfold getChallenges
  refine mapExcept_error_of_mem selectDns01 _ selectDns01_cases _ auth ha ?_
  unfold selectDns01
  rw [hmiss]

theorem awaitAllVerified_nil (env : Env) : awaitAllVerified env [] = some 0 := rfl

theorem awaitAllVerified_cons (env : Env) (r : ChallengeRecord)
    (rs : List ChallengeRecord) :
    awaitAllVerified env (r :: rs) =
      match recordResolveTime env r, awaitAllVerified env rs with
      | some t, some u => some (Nat.max t u)
      | _, _ => none := rfl

theorem awaitAllVerified_mem (env : Env) (records : List ChallengeRecord)
    (T : Nat) (h : awaitAllVerified env records = some T) :
    ∀ r ∈ records, ∃ t, recordResolveTime env r = some t ∧ t ≤ T := by
  induction records generalizing T with
  | nil => simp
  | cons r rs ih =>
    rw [awaitAllVerified_cons] at h
    cases hr : recordResolveTime env r with
    | none => rw [hr] at h; exact absurd h (by simp)
    | some t =>
      rw [hr] at h
      cases ha : awaitAllVerified env rs with
      | none => rw [ha] at h; exact absurd h (by simp)
      | some u =>
        rw [ha] at h
        have hT : Nat.max t u = T := by simpa using h
        intro x hx
        rcases List.mem_cons.mp hx with h1 | h1
        · exact ⟨t, by rw [h1]; exact hr, hT ▸ Nat.le_max_left t u⟩
        · rcases ih u ha x h1 with ⟨t', ht', hle⟩
          exact ⟨t', ht', hT ▸ le_trans hle (Nat.le_max_right t u)⟩

theorem mapExcept_ok_getElem (f : α → Except ε β) (l : List α) (bs : List β)
    (h : mapExcept f l = Except.ok bs) :
    bs.length = l.length ∧
    ∀ i, i < l.length →
      ∃ a b, l[i]? = some a ∧ bs[i]? = some b ∧ f a = Except.ok b := by
  induction l generalizing bs with
  | nil =>
    unfold mapExcept at h
    have : ([] : List β) = bs := by simpa using h
    rw [← this]
    exact ⟨rfl, by intro i hi; exact absurd hi (by simp)⟩
  | cons a as ih =>
    unfold mapExcept at h
    cases hf : f a with
    | error e => rw [hf] at h; exact absurd h (by simp)
    | ok b =>
      rw [hf] at h
      cases hm : mapExcept f as with
      | error e => rw [hm] at h; exact absurd h (by simp)
      | ok bs' =>
        rw [hm] at h
        have hb : b :: bs' = bs := by simpa using h
        rw [← hb]
        rcases ih bs' hm with ⟨hlen, hget⟩
        refine ⟨by simp [hlen], ?_⟩
        intro i hi
        cases i with
        | zero => exact ⟨a, b, by simp, by simp, hf⟩
        | succ i' =>
          rcases hget i' (by simpa using hi) with ⟨a', b', ha', hb', hfab⟩
          exact ⟨a', b', by simpa using ha', by simpa using hb', hfab⟩

theorem runChallengePhase_getChallenges_error (env : Env) (domains : List String)
    (evs : List Event) (e : WError)
    (h : getChallenges env domains = Except.error e) :
    runChallengePhase env domains evs = (Outcome.err e, evs) := by
  simp [runChallengePhase, h]

/-- If the trace of the challenge phase contains a finalize event not
already present in the incoming prefix, the verification barrier must have
returned. -/
theorem finalize_event_in_challenge_phase (env : Env) (domains : List String)
    (evs : List Event) (hevs : ∀ e ∈ evs, isFinalizeEvent e = false)
    (ev : Event) (hmem : ev ∈ (runChallengePhase env domains evs).2)
    (hfin : isFinalizeEvent ev = true) :
    ∃ chals T, getChallenges env domains = Except.ok chals
      ∧ awaitAllVerified env (computeRecords env chals) = some T := by
  cases hgc : getChallenges env domains with
  | error e =>
    rw [runChallengePhase_getChallenges_error env domains evs e hgc] at hmem
    rw [hevs ev hmem] at hfin
    exact absurd hfin (by simp)
  | ok chals =>
    cases hrc : env.registerChallenges
        (pushRecordsPayload (computeRecords env chals)) with
    | error e2 =>
      simp only [runChallengePhase, hgc, hrc] at hmem
      simp only [List.mem_append, List.mem_singleton] at hmem
      rcases hmem with hm | hm
      · rw [hevs ev hm] at hfin; exact absurd hfin (by simp)
      · rw [hm] at hfin; exact absurd hfin (by simp [isFinalizeEvent])
    | ok u =>
      cases hb : awaitAllVerified env (computeRecords env chals) with
      | none =>
        simp only [runChallengePhase, hgc, hrc, runVerifyPhase, hb] at hmem
        simp only [List.mem_append, List.mem_singleton, List.mem_map] at hmem
        rcases hmem with (hm | hm) | ⟨r, _, hm⟩
        · rw [hevs ev hm] at hfin; exact absurd hfin (by simp)
        · rw [hm] at hfin; exact absurd hfin (by simp [isFinalizeEvent])
        · rw [← hm] at hfin; exact absurd hfin (by simp [isFinalizeEvent])
      | some T => exact ⟨chals, T, rfl, hb⟩

/-! ## Claim theorems: the workflow -/

/-- C2: the verification barrier over `N` records returns only after all
`N` watcher signals have fired (every record has a resolve time, each at
most the barrier's return time), and no challenge-finalization call ever
appears in a worker trace unless the barrier over the published records
returned. -/
theorem finalize_only_after_barrier (env : Env) (records : List ChallengeRecord) :
    (∀ T, awaitAllVerified env records = some T →
      ∀ r ∈ records, ∃ t, recordResolveTime env r = some t ∧ t ≤ T)
    ∧ (∀ ev, ev ∈ (startWorker env).2 → isFinalizeEvent ev = true →
        ∃ domains chals T, env.fetchDomains = Except.ok domains
          ∧ getChallenges env domains = Except.ok chals
          ∧ awaitAllVerified env (computeRecords env chals) = some T) := by
  constructor
  · exact fun T h => awaitAllVerified_mem env records T h
  · intro ev hmem hfin
    cases hrc : env.registerClient with
    | error e =>
      simp only [startWorker, hrc, List.mem_singleton] at hmem
      rw [hmem] at hfin
      exact absurd hfin (by simp [isFinalizeEvent])
    | ok em =>
      cases hfd : env.fetchDomains with
      | error e =>
        simp only [startWorker, hrc, hfd, List.mem_cons,
          List.not_mem_nil] at hmem
        rcases hmem with hm | hm | hm | hm <;>
          first
            | (rw [hm] at hfin; exact absurd hfin (by simp [isFinalizeEvent]))
            | cases hm
      | ok domains =>
        have hmem2 : ev ∈ (runChallengePhase env domains
            [Event.registerClientCall, Event.createAccountCall em,
             Event.fetchDomainsCall, Event.createOrderCall domains]).2 := by
          simpa only [startWorker, hrc, hfd] using hmem
        rcases finalize_event_in_challenge_phase env domains _
            (by intro e he; fin_cases he <;> rfl) ev hmem2 hfin with ⟨chals, T, hgc, hb⟩
        exact ⟨domains, chals, T, rfl, hgc, hb⟩

/-- Witness for C2: in the concrete environment the single record's
watcher resolves at second 25, which bounds the barrier's return time. -/
theorem finalize_only_after_barrier_witness :
    ∃ t, recordResolveTime demoEnv demoRecord = some t ∧ t ≤ 25 :=
  (finalize_only_after_barrier demoEnv [demoRecord]).1 25 rfl demoRecord
    (by simp)

/-- C8: whenever the `fetchDomains` RPC fails, no `registerChallenges`
publication call ever occurs in the worker trace, and (when registration
succeeded) the job aborts with that RPC error. -/
theorem no_publication_after_fetchDomains_error (env : Env) (e : String)
    (hf : env.fetchDomains = Except.error e) :
    (∀ vs, Event.registerChallengesCall vs ∉ (startWorker env).2)
    ∧ (∀ em, env.registerClient = Except.ok em →
        (startWorker env).1 = Outcome.err (WError.rpc e)) := by
  constructor
  · intro vs hmem
    cases hrc : env.registerClient with
    | error e2 =>
      simp only [startWorker, hrc, List.mem_singleton] at hmem
      cases hmem
    | ok em =>
      simp only [startWorker, hrc, hf, List.mem_cons, List.not_mem_nil] at hmem
      rcases hmem with hm | hm | hm | hm <;> cases hm
  · intro em hrc
    simp [startWorker, hrc, hf]

/-- Witness for C8 at the concrete failing-fetch environment. -/
theorem no_publication_after_fetchDomains_error_witness :
    (∀ vs, Event.registerChallengesCall vs ∉ (startWorker demoEnvFetchErr).2)
    ∧ (startWorker demoEnvFetchErr).1 = Outcome.err (WError.rpc "boom") := by
  have h := no_publication_after_fetchDomains_error demoEnvFetchErr "boom" rfl
  exact ⟨h.1, h.2 "ops@example.com" rfl⟩

/-- C5: a successful `getChallenges` pairs every authorization, in order,
with the first dns-01-typed entry of its challenge list; if some
authorization offers no dns-01 challenge, `getChallenges` fails with the
thrown `Unabled to find dns-01 challenge.` error, and in that case no
`registerChallenges` publication call ever occurs in the worker trace. -/
theorem getChallenges_selects_first_dns01 (env : Env) (domains : List String) :
    (∀ chals, getChallenges env domains = Except.ok chals →
      List.Forall₂ (fun auth p => p.auth = auth ∧
          auth.challenges.find? (fun c => c.ctype == "dns-01") = some p.challenge)
        (env.authorizations domains) chals)
    ∧ ((∃ auth ∈ env.authorizations domains,
          auth.challenges.filter (fun c => c.ctype == "dns-01") = []) →
        getChallenges env domains
            = Except.error (WError.thrown "Unabled to find dns-01 challenge.")
        ∧ ∀ em, env.registerClient = Except.ok em →
            env.fetchDomains = Except.ok domains →
            ∀ vs, Event.registerChallengesCall vs ∉ (startWorker env).2) := by
  constructor
  · intro chals hok
    exact List.Forall₂.imp (fun a p hp => selectDns01_ok a p hp)
      (mapExcept_ok_forall₂ selectDns01 (env.authorizations domains) chals hok)
  · rintro ⟨auth, ha, hmiss⟩
    have herr := getChallenges_error_of_missing_dns01 env domains auth ha hmiss
    refine ⟨herr, ?_⟩
    intro em hrc hfd vs hmem
    have hmem2 : Event.registerChallengesCall vs ∈ (runChallengePhase env domains
        [Event.registerClientCall, Event.createAccountCall em,
         Event.fetchDomainsCall, Event.createOrderCall domains]).2 := by
      simpa only [startWorker, hrc, hfd] using hmem
    rw [runChallengePhase_getChallenges_error env domains _ _ herr] at hmem2
    rcases List.mem_cons.mp hmem2 with hm | hm
    · cases hm
    · rcases List.mem_cons.mp hm with hm2 | hm2
      · cases hm2
      · rcases List.mem_cons.mp hm2 with hm3 | hm3
        · cases hm3
        · rcases List.mem_cons.mp hm3 with hm4 | hm4
          · cases hm4
          · cases hm4

/-- Witness for C5: the environment whose only authorization offers no
dns-01 challenge, and the fully successful environment for the
first-dns-01 selection. -/
theorem getChallenges_selects_first_dns01_witness :
    List.Forall₂ (fun (auth : AuthObj) (p : ChalPair) => p.auth = auth ∧
        auth.challenges.find? (fun c => c.ctype == "dns-01") = some p.challenge)
      (demoEnv.authorizations ["example.com"]) [⟨demoAuth, demoChallenge⟩]
    ∧ getChallenges demoEnvNoDns ["example.com"]
        = Except.error (WError.thrown "Unabled to find dns-01 challenge.")
    ∧ ∀ vs, Event.registerChallengesCall vs ∉ (startWorker demoEnvNoDns).2 := by
  have h1 := (getChallenges_selects_first_dns01 demoEnv ["example.com"]).1
    [⟨demoAuth, demoChallenge⟩] rfl
  have h2 := (getChallenges_selects_first_dns01 demoEnvNoDns ["example.com"]).2
    ⟨demoAuthNoDns, by decide, by decide⟩
  exact ⟨h1, h2.1, h2.2 "ops@example.com" rfl rfl⟩

/-- Counterexample to C3 as stated: the payload handed to the
`registerChallenges` RPC is `records.map((r) => r.value)` — the DNS keys
are not part of it. The key of the single record does not occur in the
payload, and two batches differing only in their keys produce identical
payloads, so the full records (key and value) are not sent. -/
theorem pushRecords_payload_lacks_keys :
    pushRecordsPayload [⟨"_acme-challenge.example.com", "tokn1"⟩] = ["tokn1"]
    ∧ "_acme-challenge.example.com"
        ∉ pushRecordsPayload [⟨"_acme-challenge.example.com", "tokn1"⟩]
    ∧ pushRecordsPayload [⟨"_acme-challenge.a.example.com", "tokn1"⟩]
        = pushRecordsPayload [⟨"_acme-challenge.b.example.com", "tokn1"⟩] := by
  refine ⟨rfl, ?_, rfl⟩
  decide

/-- C3 (amended): `pushRecords` sends only the expected TXT values of the
record batch — one value per record, in order, without the DNS keys — to
the coordinator in exactly one `registerChallenges` call, and fails the
whole job if that RPC fails (the job ends in the RPC error and no
challenge is ever finalized). -/
theorem pushRecords_sends_values_and_rpc_failure_fatal (env : Env)
    (em : String) (domains : List String) (chals : List ChalPair) (e : String)
    (h1 : env.registerClient = Except.ok em)
    (h2 : env.fetchDomains = Except.ok domains)
    (h3 : getChallenges env domains = Except.ok chals)
    (h4 : env.registerChallenges
        (pushRecordsPayload (computeRecords env chals)) = Except.error e) :
    pushRecordsPayload (computeRecords env chals)
        = chals.map (fun c => env.keyAuth c.challenge)
    ∧ Event.registerChallengesCall (pushRecordsPayload (computeRecords env chals))
        ∈ (startWorker env).2
    ∧ (startWorker env).2.countP isPublishEvent = 1
    ∧ (startWorker env).1 = Outcome.err (WError.rpc e)
    ∧ ∀ ev ∈ (startWorker env).2, isFinalizeEvent ev = false := by
  have hpayload : pushRecordsPayload (computeRecords env chals)
      = chals.map (fun c => env.keyAuth c.challenge) := by
    simp [pushRecordsPayload, computeRecords]
  have hsw : startWorker env =
      (Outcome.err (WError.rpc e),
       [Event.registerClientCall, Event.createAccountCall em,
        Event.fetchDomainsCall, Event.createOrderCall domains,
        Event.registerChallengesCall
          (pushRecordsPayload (computeRecords env chals))]) := by
    simp [startWorker, h1, h2, runChallengePhase, h3, h4]
  refine ⟨hpayload, ?_, ?_, ?_, ?_⟩
  · rw [hsw]; simp
  · rw [hsw]; simp [List.countP_cons, isPublishEvent]
  · rw [hsw]
  · rw [hsw]
    intro ev hev
    fin_cases hev <;> rfl

/-- Witness for the amended C3 at the concrete environment whose
`registerChallenges` RPC fails. -/
theorem pushRecords_sends_values_and_rpc_failure_fatal_witness :
    pushRecordsPayload (computeRecords demoEnvPushErr [⟨demoAuth, demoChallenge⟩])
        = ([⟨demoAuth, demoChallenge⟩] : List ChalPair).map
            (fun c => demoEnvPushErr.keyAuth c.challenge)
    ∧ Event.registerChallengesCall
        (pushRecordsPayload (computeRecords demoEnvPushErr [⟨demoAuth, demoChallenge⟩]))
        ∈ (startWorker demoEnvPushErr).2
    ∧ (startWorker demoEnvPushErr).2.countP isPublishEvent = 1
    ∧ (startWorker demoEnvPushErr).1 = Outcome.err (WError.rpc "rpcfail")
    ∧ ∀ ev ∈ (startWorker demoEnvPushErr).2, isFinalizeEvent ev = false :=
  pushRecords_sends_values_and_rpc_failure_fatal demoEnvPushErr
    "ops@example.com" ["example.com"] [⟨demoAuth, demoChallenge⟩] "rpcfail"
    rfl rfl rfl rfl

/-- C4: given a non-empty domain set whose authorizations correspond
one-to-one and in order to the domains (the ACME collaborator's contract),
the expected-record computation yields exactly one record per domain, in
the positional order of the challenge list: record `i` has key
`"_acme-challenge." ++ domains[i]` and value the key authorization of
challenge `i`. -/
theorem computeRecords_one_per_domain (env : Env) (domains : List String)
    (chals : List ChalPair)
    (_hne : domains ≠ [])
    (hok : getChallenges env domains = Except.ok chals)
    (hauth : (env.authorizations domains).map (fun a => a.identifierValue)
        = domains) :
    (computeRecords env chals).length = domains.length
    ∧ chals.length = domains.length
    ∧ ∀ i, i < domains.length →
        ((computeRecords env chals)[i]?.map (fun r => r.key)
            = (domains[i]?).map (fun d => "_acme-challenge." ++ d))
        ∧ ((computeRecords env chals)[i]?.map (fun r => r.value)
            = (chals[i]?).map (fun c => env.keyAuth c.challenge)) := by
  rcases mapExcept_ok_getElem selectDns01 (env.authorizations domains) chals hok
    with ⟨hlen, hget⟩
  have hdlen : (env.authorizations domains).length = domains.length := by
    simpa using congrArg List.length hauth
  refine ⟨by simp [computeRecords, hlen, hdlen], by rw [hlen, hdlen], ?_⟩
  intro i hi
  rcases hget i (by omega) with ⟨a, p, ha, hp, hfp⟩
  rcases selectDns01_ok a p hfp with ⟨hpa, _⟩
  have hkey : (computeRecords env chals)[i]?
      = some ⟨"_acme-challenge." ++ p.auth.identifierValue, env.keyAuth p.challenge⟩ := by
    simp [computeRecords, List.getElem?_map, hp]
  have hdom : domains[i]? = some a.identifierValue := by
    rw [← hauth]
    simp [List.getElem?_map, ha]
  rw [hkey, hdom, hp, hpa]
  exact ⟨rfl, rfl⟩

/-- Witness for C4 at the concrete single-domain environment. -/
theorem computeRecords_one_per_domain_witness :
    (computeRecords demoEnv [⟨demoAuth, demoChallenge⟩]).length
        = (["example.com"] : List String).length
    ∧ ([⟨demoAuth, demoChallenge⟩] : List ChalPair).length
        = (["example.com"] : List String).length
    ∧ ∀ i, i < (["example.com"] : List String).length →
        ((computeRecords demoEnv [⟨demoAuth, demoChallenge⟩])[i]?.map (fun r => r.key)
            = ((["example.com"] : List String)[i]?).map
                (fun d => "_acme-challenge." ++ d))
        ∧ ((computeRecords demoEnv [⟨demoAuth, demoChallenge⟩])[i]?.map (fun r => r.value)
            = (([⟨demoAuth, demoChallenge⟩] : List ChalPair)[i]?).map
                (fun c => demoEnv.keyAuth c.challenge)) :=
  computeRecords_one_per_domain demoEnv ["example.com"]
    [⟨demoAuth, demoChallenge⟩] (by decide) rfl (by decide)

/-- C7: the issuance step builds the CSR from the domain set's first entry
as common name and all remaining entries, in order, as alternative names,
and reports the private key, CSR and issued certificate base64-encoded
through the coordinator's `verifiedCallback` RPC (after finalizing the
order with that same CSR). -/
theorem issue_builds_csr_and_reports_base64 (env : Env) (d0 : String)
    (rest : List String) :
    (issue env (d0 :: rest)).2 =
      [Event.finalizeOrderCall (env.createCsr (some d0) rest).2,
       Event.verifiedCallbackCall
         (base64 (env.createCsr (some d0) rest).2)
         (base64 (env.createCsr (some d0) rest).1)
         (base64 env.getCertificate)] := by
  unfold issue
  cases h : env.verifiedCallback <;> simp

/-- C10: an empty domain set is not rejected anywhere: `getChallenges`
returns the empty challenge list without error, the single publication
call carries zero records, the barrier over zero records returns
immediately (time 0) with no `watchCall` DNS activity, no challenge is
ever finalized, and the job completes. -/
theorem empty_domains_not_rejected (env : Env) (em : String)
    (h1 : env.registerClient = Except.ok em)
    (h2 : env.fetchDomains = Except.ok [])
    (h3 : env.authorizations [] = [])
    (h4 : env.registerChallenges [] = Except.ok ())
    (h5 : env.verifiedCallback = Except.ok ()) :
    getChallenges env [] = Except.ok []
    ∧ awaitAllVerified env [] = some 0
    ∧ (startWorker env).1 = Outcome.ok
    ∧ Event.registerChallengesCall [] ∈ (startWorker env).2
    ∧ (∀ k v, Event.watchCall k v ∉ (startWorker env).2)
    ∧ ∀ ev ∈ (startWorker env).2, isFinalizeEvent ev = false := by
  have hgc : getChallenges env [] = Except.ok [] := by
    unfold getChallenges
    rw [h3]
    rfl
  have hsw : startWorker env =
      (Outcome.ok,
       [Event.registerClientCall, Event.createAccountCall em,
        Event.fetchDomainsCall, Event.createOrderCall [],
        Event.registerChallengesCall [],
        Event.finalizeOrderCall (env.createCsr none []).2,
        Event.verifiedCallbackCall (base64 (env.createCsr none []).2)
          (base64 (env.createCsr none []).1) (base64 env.getCertificate)]) := by
    simp [startWorker, h1, h2, runChallengePhase, hgc, computeRecords,
      pushRecordsPayload, h4, runVerifyPhase, awaitAllVerified,
      runFinalizePhase, mapExcept, issue, h5]
  refine ⟨hgc, rfl, ?_, ?_, ?_, ?_⟩
  · rw [hsw]
  · rw [hsw]; simp
  · intro k v hmem
    rw [hsw] at hmem
    simp at hmem
  · intro ev hev
    rw [hsw] at hev
    fin_cases hev <;> rfl

/-- Witness for C10 at the concrete zero-domain environment. -/
theorem empty_domains_not_rejected_witness :
    getChallenges demoEnvEmptyDomains [] = Except.ok []
    ∧ awaitAllVerified demoEnvEmptyDomains [] = some 0
    ∧ (startWorker demoEnvEmptyDomains).1 = Outcome.ok
    ∧ Event.registerChallengesCall [] ∈ (startWorker demoEnvEmptyDomains).2
    ∧ (∀ k v, Event.watchCall k v ∉ (startWorker demoEnvEmptyDomains).2)
    ∧ ∀ ev ∈ (startWorker demoEnvEmptyDomains).2, isFinalizeEvent ev = false :=
  empty_domains_not_rejected demoEnvEmptyDomains "ops@example.com"
    rfl rfl rfl rfl rfl

end LuppiterAcme
